import Mathlib

/-!
Shallow embedding of the finance-manager double-entry core.

Sources embedded here:
* `src/unnamed/part_007` — `TagBalanceService` and the multi-currency
  `AccountingService` (namespaces `TagBalanceService` and `Part007`);
* `src/src/lib/accounting.ts` — the single-currency `AccountingService`
  (namespace `LibAccounting`);
* `src/src/lib/currency.ts` — `CurrencyService` (`getExchangeRate`,
  `updateExchangeRates`).

Modelling conventions:
* Prisma `Decimal` / JS `number` amounts are embedded as `ℚ`.
* The database is an explicit record of row lists; `prisma.$transaction`
  is modelled by `Except`: an error result leaves the caller's state
  untouched (rollback), a success result carries the committed state.
* Timestamps are `ℕ` (milliseconds); `toISOString().split("T")[0]` becomes
  day truncation, `new Date(dateStr)` becomes the midnight timestamp of
  that day.
* JS falsiness of `0`, `""`, `undefined` is modelled explicitly by the
  `js...` helpers.
-/

attribute [local semireducible] Rat.add Rat.sub Rat.mul Rat.inv

inductive AccountType
  | ASSET
  | LIABILITY
  | INCOME
  | EXPENSE
deriving DecidableEq

inductive EntryType
  | DEBIT
  | CREDIT
deriving DecidableEq

inductive TransactionType
  | INCOME
  | EXPENSE
  | TRANSFER
deriving DecidableEq

/-- An `accounts` row. Display-only columns (`name`, `description`,
timestamps) are not read by any embedded operation and are omitted. -/
structure Account where
  id : String
  type : AccountType
  balance : ℚ
  currency : String
deriving DecidableEq

/-- A `tags` row; only the id is ever read by the embedded services. -/
structure Tag where
  id : String
deriving DecidableEq

/-- A `tag_balances` row. -/
structure TagBalance where
  id : ℕ
  tagId : String
  accountId : String
  currency : String
  balance : ℚ
deriving DecidableEq

/-- A `transactions` row (header). The `date` column is not read by any
embedded operation and is omitted. -/
structure TransactionRec where
  id : ℕ
  description : String
  amount : ℚ
  tagId : Option String
  transactionType : TransactionType
deriving DecidableEq

/-- A `transaction_entries` row. -/
structure TransactionEntryRec where
  transactionId : ℕ
  accountId : String
  debitAmount : ℚ
  creditAmount : ℚ
  entryType : EntryType
  originalAmount : Option ℚ
  originalCurrency : Option String
  exchangeRate : Option ℚ
deriving DecidableEq

/-- The ledger store state: the Prisma tables touched by the accounting
and tag-balance services, plus a fresh-id source standing for the cuid
generator (`nextId` is used for newly created rows). -/
structure DB where
  accounts : List Account
  tags : List Tag
  tagBalances : List TagBalance
  transactions : List TransactionRec
  txEntries : List TransactionEntryRec
  nextId : ℕ
deriving DecidableEq

/-- The error taxonomy: each constructor stands for one `throw new Error(...)`
site of the embedded code (plus the store's row-not-found error surfaced by
`update` on a missing account). -/
inductive Err
  | accountNotFound
  | tagNotFound
  | exceedsAccountBalance
  | tagBalanceNotFound
  | insufficientTagBalance
  | unbalancedEntry
  | rateUnavailable
deriving DecidableEq

/-- `prisma.account.findUnique({ where: { id } })`. -/
def findAccount (db : DB) (id : String) : Option Account :=
  db.accounts.find? (fun a => decide (a.id = id))

/-- `prisma.tag.findUnique({ where: { id } })`. -/
def findTag (db : DB) (id : String) : Option Tag :=
  db.tags.find? (fun t => decide (t.id = id))

/-- The key predicate of `prisma.tagBalance.findFirst({ where: { tagId,
accountId, currency } })`. -/
def tagBalanceKey (tagId accountId currency : String) (tb : TagBalance) : Bool :=
  decide (tb.tagId = tagId) && decide (tb.accountId = accountId) &&
    decide (tb.currency = currency)

/-- `prisma.tagBalance.findFirst` on the `(tagId, accountId, currency)` key. -/
def findTagBalance (db : DB) (tagId accountId currency : String) : Option TagBalance :=
  db.tagBalances.find? (tagBalanceKey tagId accountId currency)

/-- The stored balance of a `(tag, account, currency)` row, if any. -/
def tagBalanceOf (db : DB) (tagId accountId currency : String) : Option ℚ :=
  (findTagBalance db tagId accountId currency).map (fun tb => tb.balance)

namespace TagBalanceService

/-- `TagBalanceService.assignMoneyToTag` (src/unnamed/part_007, lines
122-188): account lookup, tag lookup, single-tag prospective-balance check
against the account balance, then update-by-increment or create. -/
def assignMoneyToTag (db : DB) (tagId accountId : String) (amount : ℚ) :
    Except Err DB :=
  match findAccount db accountId with
  | none => .error .accountNotFound
  | some account =>
    match findTag db tagId with
    | none => .error .tagNotFound
    | some _ =>
      let currentTagBalance := findTagBalance db tagId accountId account.currency
      let newTagBalance := ((currentTagBalance.map (fun tb => tb.balance)).getD 0) + amount
      if newTagBalance > account.balance then .error .exceedsAccountBalance
      else
        match currentTagBalance with
        | some existing =>
          .ok { db with tagBalances :=
                  db.tagBalances.map (fun tb =>
                    if tb.id = existing.id then { tb with balance := tb.balance + amount }
                    else tb) }
        | none =>
          .ok { db with
                  tagBalances := db.tagBalances ++
                    [{ id := db.nextId, tagId := tagId, accountId := accountId,
                       currency := account.currency, balance := amount }],
                  nextId := db.nextId + 1 }

/-- `TagBalanceService.removeMoneyFromTag` (src/unnamed/part_007, lines
191-237): account lookup, row lookup, amount checks, then delete-on-exact
or update-by-decrement. -/
def removeMoneyFromTag (db : DB) (tagId accountId : String) (amount : ℚ) :
    Except Err DB :=
  match findAccount db accountId with
  | none => .error .accountNotFound
  | some account =>
    match findTagBalance db tagId accountId account.currency with
    | none => .error .tagBalanceNotFound
    | some currentBalance =>
      if amount > currentBalance.balance then .error .insufficientTagBalance
      else if amount = currentBalance.balance then
        .ok { db with tagBalances :=
                db.tagBalances.filter (fun tb => !(tb.id = currentBalance.id)) }
      else
        .ok { db with tagBalances :=
                db.tagBalances.map (fun tb =>
                  if tb.id = currentBalance.id then { tb with balance := tb.balance - amount }
                  else tb) }

end TagBalanceService

/-- The store's unique constraint on `tag_balances (tagId, accountId,
currency)`, as a decidable predicate on the row list. -/
def keysUniqueB : List TagBalance → Bool
  | [] => true
  | x :: xs =>
    xs.all (fun y => !(tagBalanceKey x.tagId x.accountId x.currency y)) && keysUniqueB xs

/-- The primary-key uniqueness of `tag_balances.id`, as a decidable
predicate on the row list. -/
def idsUniqueB : List TagBalance → Bool
  | [] => true
  | x :: xs => xs.all (fun y => !(x.id = y.id)) && idsUniqueB xs

/-! ## JS falsiness helpers -/

/-- JS `o || d` on an optional number: `undefined` and `0` fall through. -/
def jsOrQ (o : Option ℚ) (d : ℚ) : ℚ :=
  match o with
  | some x => if x = 0 then d else x
  | none => d

/-- JS `o || d` on an optional string: `undefined` and `""` fall through. -/
def jsOrS (o : Option String) (d : String) : String :=
  match o with
  | some s => if s = "" then d else s
  | none => d

/-- JS truthiness of an optional number (`undefined` and `0` are falsy). -/
def jsTruthyQ (o : Option ℚ) : Bool :=
  match o with
  | some x => !(x = 0)
  | none => false

/-- JS truthiness of an optional string (`undefined` and `""` are falsy). -/
def jsTruthyS (o : Option String) : Bool :=
  match o with
  | some s => !(s = "")
  | none => false

/-- `[...new Set(list)]`: removes duplicates keeping first-occurrence order. -/
def jsSetDedup (l : List String) : List String :=
  l.foldl (fun acc x => if x ∈ acc then acc else acc ++ [x]) []

/-- JS `toUpperCase()` on the ASCII currency codes in play: character-wise
uppercasing. (`String.toUpper` itself is defined by well-founded recursion,
which blocks kernel evaluation; this structural form is extensionally the
same on these strings.) -/
def jsToUpper (s : String) : String := ⟨s.data.map Char.toUpper⟩

/-- JS `toLowerCase()`, character-wise. -/
def jsToLower (s : String) : String := ⟨s.data.map Char.toLower⟩

/-! ## Currency conversion oracle

The accounting layer consumes `currencyService.getExchangeRate` through an
oracle `String → String → Except Unit ℚ` standing for the resolver (its
date argument and its cache update are abstracted into the oracle; neither
affects the values the accounting layer reads). `convertCurrencyO` is
`CurrencyService.convertCurrency` (src/src/lib/currency.ts, lines 122-141)
over that oracle. -/

abbrev Oracle := String → String → Except Unit ℚ

/-- The result record of `convertCurrency` (the unused `date` string field
is omitted). -/
structure ConversionResult where
  originalAmount : ℚ
  convertedAmount : ℚ
  fromCurrency : String
  toCurrency : String
  exchangeRate : ℚ
deriving DecidableEq

/-- `CurrencyService.convertCurrency` over the rate oracle:
`convertedAmount = amount * rate`, `exchangeRate = rate`. -/
def convertCurrencyO (oracle : Oracle) (amount : ℚ) (fromCurrency toCurrency : String) :
    Except Unit ConversionResult :=
  match oracle fromCurrency toCurrency with
  | .error e => .error e
  | .ok rate =>
    .ok { originalAmount := amount, convertedAmount := amount * rate,
          fromCurrency := jsToUpper fromCurrency, toCurrency := jsToUpper toCurrency,
          exchangeRate := rate }

/-! ## Transaction inputs -/

/-- `TransactionEntryInput` (src/unnamed/part_007, lines 5-13). The
`LibAccounting` entry type has no currency fields; its code neither reads
nor stores them. -/
structure TransactionEntryInput where
  accountId : String
  entryType : EntryType
  amount : ℚ
  originalAmount : Option ℚ
  originalCurrency : Option String
  exchangeRate : Option ℚ
deriving DecidableEq

/-- `TransactionInput` (the unused `date` field is omitted). -/
structure TransactionInput where
  description : String
  amount : ℚ
  tagId : Option String
  transactionType : TransactionType
  entries : List TransactionEntryInput
deriving DecidableEq

/-- `TransferTransaction` extended by `CurrencyTransferTransaction`
(src/unnamed/part_007, lines 42-55); the plain variant has the three
optional fields absent. -/
structure CurrencyTransferTransaction where
  description : String
  amount : ℚ
  tagId : Option String
  fromAccountId : String
  toAccountId : String
  fromCurrency : Option String
  toCurrency : Option String
  customExchangeRate : Option ℚ
deriving DecidableEq

/-- Sum of the DEBIT amounts of an entry list
(`entries.filter(DEBIT).reduce(sum)`). -/
def sumDebits : List TransactionEntryInput → ℚ
  | [] => 0
  | e :: rest => (if e.entryType = EntryType.DEBIT then e.amount else 0) + sumDebits rest

/-- Sum of the CREDIT amounts of an entry list
(`entries.filter(CREDIT).reduce(sum)`). -/
def sumCredits : List TransactionEntryInput → ℚ
  | [] => 0
  | e :: rest => (if e.entryType = EntryType.CREDIT then e.amount else 0) + sumCredits rest

/-! ## Balance writes

Each update of `Account.balance` issued inside a `$transaction` is recorded
as the shape of the Prisma argument object the source builds: part_007
passes `{ balance: { increment: delta } }`, lib/accounting.ts passes
`{ balance: newBalance }`. -/

inductive BalanceWrite
  | increment (accountId : String) (delta : ℚ)
  | setValue (accountId : String) (value : ℚ)
deriving DecidableEq

def BalanceWrite.isIncrement : BalanceWrite → Bool
  | .increment _ _ => true
  | .setValue _ _ => false

def BalanceWrite.isSetValue : BalanceWrite → Bool
  | .increment _ _ => false
  | .setValue _ _ => true

/-- The plain-signed balance change of one entry (`balanceChange` at
src/unnamed/part_007, line 414): `+amount` for DEBIT, `-amount` for
CREDIT, independent of the account type. -/
def signedAmount (e : TransactionEntryInput) : ℚ :=
  if e.entryType = EntryType.DEBIT then e.amount else -e.amount

/-- The net plain-signed change an entry list applies to one account. -/
def netDeltaP7 (i : String) : List TransactionEntryInput → ℚ
  | [] => 0
  | e :: rest => (if e.accountId = i then signedAmount e else 0) + netDeltaP7 i rest

/-- The type-aware normal-balance change of one entry: a DEBIT of amount
`a` adds `a` for ASSET/EXPENSE accounts and subtracts it for
LIABILITY/INCOME accounts; a CREDIT is the mirror image. -/
def typeAwareDelta (t : AccountType) (e : TransactionEntryInput) : ℚ :=
  if e.entryType = EntryType.DEBIT then
    (if t = AccountType.ASSET ∨ t = AccountType.EXPENSE then e.amount else -e.amount)
  else
    (if t = AccountType.ASSET ∨ t = AccountType.EXPENSE then -e.amount else e.amount)

/-- The net type-aware change an entry list applies to one account of
type `t`. -/
def netDeltaLib (t : AccountType) (i : String) : List TransactionEntryInput → ℚ
  | [] => 0
  | e :: rest => (if e.accountId = i then typeAwareDelta t e else 0) + netDeltaLib t i rest

/-- `tx.account.update({ where: { id }, data: { balance: { increment: δ } } })`
applied to the account list. -/
def incBalance (l : List Account) (id : String) (δ : ℚ) : List Account :=
  l.map (fun a => if a.id = id then { a with balance := a.balance + δ } else a)

/-- `tx.account.update({ where: { id }, data: { balance: v } })` applied to
the account list. -/
def setBalance (l : List Account) (id : String) (v : ℚ) : List Account :=
  l.map (fun a => if a.id = id then { a with balance := v } else a)

/-- The transaction header row created by either `createTransaction`. -/
def mkTxRec (db : DB) (input : TransactionInput) : TransactionRec :=
  { id := db.nextId, description := input.description, amount := input.amount,
    tagId := input.tagId, transactionType := input.transactionType }

/-- The entry row created by `Part007.createTransaction`: `debitAmount` /
`creditAmount` by entry kind, currency-tagging columns copied from the
input. -/
def mkEntryRec (txId : ℕ) (e : TransactionEntryInput) : TransactionEntryRec :=
  { transactionId := txId, accountId := e.accountId,
    debitAmount := if e.entryType = EntryType.DEBIT then e.amount else 0,
    creditAmount := if e.entryType = EntryType.CREDIT then e.amount else 0,
    entryType := e.entryType,
    originalAmount := e.originalAmount, originalCurrency := e.originalCurrency,
    exchangeRate := e.exchangeRate }

/-- The entry row created by `LibAccounting.createTransaction`: its `data`
object sets no currency-tagging columns, so they are stored null. -/
def mkEntryRecLib (txId : ℕ) (e : TransactionEntryInput) : TransactionEntryRec :=
  { transactionId := txId, accountId := e.accountId,
    debitAmount := if e.entryType = EntryType.DEBIT then e.amount else 0,
    creditAmount := if e.entryType = EntryType.CREDIT then e.amount else 0,
    entryType := e.entryType,
    originalAmount := none, originalCurrency := none, exchangeRate := none }

/-- The state a caller observes after a `prisma.$transaction`: the committed
state on success, the untouched pre-state on rollback. -/
def commitResult (r : Except Err (DB × List BalanceWrite)) (db : DB) : DB :=
  match r with
  | .ok (db2, _) => db2
  | .error _ => db

namespace Part007

/-- One iteration of the valuation loop of
`AccountingService.validateDoubleEntry` (src/unnamed/part_007, lines
331-371), accumulating `(totalDebitsInBase, totalCreditsInBase)`. The
account map built at lines 311-314 holds exactly the found account of every
entry's `accountId`, so the `accountMap.get` lookup is `findAccount`. A
failed `convertCurrency` call is caught and the raw amount used (lines
358-362). -/
def vstep (oracle : Oracle) (db : DB) (baseCurrency : String)
    (acc : ℚ × ℚ) (e : TransactionEntryInput) : ℚ × ℚ :=
  match findAccount db e.accountId with
  | none => acc
  | some account =>
    let amountInBase :=
      if account.currency = baseCurrency then e.amount
      else if jsTruthyQ e.exchangeRate && jsTruthyS e.originalCurrency then
        (if e.originalCurrency = some baseCurrency then jsOrQ e.originalAmount e.amount
         else if account.currency = baseCurrency then
           jsOrQ e.originalAmount e.amount * (e.exchangeRate.getD 0)
         else e.amount)
      else
        match convertCurrencyO oracle e.amount account.currency baseCurrency with
        | .ok conversion => conversion.convertedAmount
        | .error _ => e.amount
    if e.entryType = EntryType.DEBIT then (acc.1 + amountInBase, acc.2)
    else (acc.1, acc.2 + amountInBase)

/-- The `accounts` local of `validateDoubleEntry` (lines 308-309): the
deduplicated entry account ids, each looked up in the store. -/
def lookedUpAccounts (db : DB) (entries : List TransactionEntryInput) :
    List (Option Account) :=
  (jsSetDedup (entries.map (fun e => e.accountId))).map (fun i => findAccount db i)

/-- The `currencies` local of `validateDoubleEntry` (line 317): the
distinct currencies of the found accounts. -/
def foundCurrencies (db : DB) (entries : List TransactionEntryInput) : List String :=
  jsSetDedup (((lookedUpAccounts db entries).filterMap id).map (fun a => a.currency))

/-- The `baseCurrency` local of `validateDoubleEntry` (line 327):
`accounts[0]?.currency || "LKR"`. -/
def baseCurrencyOf (db : DB) (entries : List TransactionEntryInput) : String :=
  match lookedUpAccounts db entries with
  | some a :: _ => a.currency
  | _ => "LKR"

/-- `AccountingService.validateDoubleEntry` (src/unnamed/part_007, lines
306-374): if the found accounts cover at most one currency, compare raw
sums with strict tolerance `< 0.01`; otherwise valuate each entry into the
first account's currency (`"LKR"` if that account is missing) and compare
with the same tolerance. -/
def validateDoubleEntry (oracle : Oracle) (db : DB)
    (entries : List TransactionEntryInput) : Bool :=
  if (foundCurrencies db entries).length ≤ 1 then
    decide (|sumDebits entries - sumCredits entries| < 1 / 100)
  else
    let p := entries.foldl (vstep oracle db (baseCurrencyOf db entries)) (0, 0)
    decide (|p.1 - p.2| < 1 / 100)

/-- The balance-update loop of `Part007.createTransaction` (lines 412-424):
for each entry, `increment` the account balance by `+amount` for DEBIT and
`-amount` for CREDIT. An update targeting a missing account surfaces the
store's row-not-found error (rolling back the enclosing `$transaction`);
`Err.accountNotFound` stands for that error. -/
def applyBalanceUpdates : DB → List TransactionEntryInput →
    Except Err (DB × List BalanceWrite)
  | db, [] => .ok (db, [])
  | db, e :: rest =>
    match findAccount db e.accountId with
    | none => .error .accountNotFound
    | some _ =>
      match applyBalanceUpdates
          { db with accounts := incBalance db.accounts e.accountId (signedAmount e) } rest with
      | .ok (db2, ws) => .ok (db2, .increment e.accountId (signedAmount e) :: ws)
      | .error err => .error err

/-- The `$transaction` body of `Part007.createTransaction` (lines 382-430):
insert the header, insert all entry rows, then run the balance-update loop.
(In the source a missing account would already fail the entry insert's
foreign key; either failure point aborts the same all-or-nothing scope with
no observable difference.) -/
def runTxBody (db : DB) (input : TransactionInput) :
    Except Err (DB × List BalanceWrite) :=
  let db1 := { db with
                transactions := db.transactions ++ [mkTxRec db input],
                txEntries := db.txEntries ++ input.entries.map (mkEntryRec db.nextId),
                nextId := db.nextId + 1 }
  applyBalanceUpdates db1 input.entries

/-- `AccountingService.createTransaction` (src/unnamed/part_007, lines
377-431): validate, then run the body inside `prisma.$transaction`; a
failed validation throws before any write. -/
def createTransaction (oracle : Oracle) (db : DB) (input : TransactionInput) :
    Except Err (DB × List BalanceWrite) :=
  if validateDoubleEntry oracle db input.entries then runTxBody db input
  else .error .unbalancedEntry

/-- The entry-set composition of
`AccountingService.createTransferTransaction` (src/unnamed/part_007, lines
480-558), up to the final `this.createTransaction` call: resolve accounts,
resolve currencies (`input.fromCurrency || fromAccount.currency` etc.),
and for cross-currency transfers resolve the rate (the custom rate if
truthy, else `convertCurrency`) and tag both legs. -/
def transferInput (oracle : Oracle) (db : DB) (input : CurrencyTransferTransaction) :
    Except Err TransactionInput :=
  match findAccount db input.fromAccountId, findAccount db input.toAccountId with
  | some fromAccount, some toAccount =>
    let fromCurrency := jsOrS input.fromCurrency fromAccount.currency
    let toCurrency := jsOrS input.toCurrency toAccount.currency
    if fromCurrency = toCurrency then
      .ok { description := input.description, amount := input.amount,
            tagId := input.tagId, transactionType := .TRANSFER,
            entries := [
              { accountId := input.toAccountId, entryType := .DEBIT,
                amount := input.amount, originalAmount := none,
                originalCurrency := none, exchangeRate := none },
              { accountId := input.fromAccountId, entryType := .CREDIT,
                amount := input.amount, originalAmount := none,
                originalCurrency := none, exchangeRate := none } ] }
    else
      let build := fun (conversionResult : ConversionResult) =>
        TransactionInput.mk input.description input.amount input.tagId .TRANSFER
          [ { accountId := input.toAccountId, entryType := .DEBIT,
              amount := conversionResult.convertedAmount,
              originalAmount := some input.amount,
              originalCurrency := some fromCurrency,
              exchangeRate := some conversionResult.exchangeRate },
            { accountId := input.fromAccountId, entryType := .CREDIT,
              amount := input.amount,
              originalAmount := some conversionResult.convertedAmount,
              originalCurrency := some toCurrency,
              exchangeRate := some (1 / conversionResult.exchangeRate) } ]
      if jsTruthyQ input.customExchangeRate then
        let customRate := input.customExchangeRate.getD 0
        .ok (build { originalAmount := input.amount,
                     convertedAmount := input.amount * customRate,
                     fromCurrency := fromCurrency, toCurrency := toCurrency,
                     exchangeRate := customRate })
      else
        match convertCurrencyO oracle input.amount fromCurrency toCurrency with
        | .error _ => .error .rateUnavailable
        | .ok conversionResult => .ok (build conversionResult)
  | _, _ => .error .accountNotFound

/-- `AccountingService.createTransferTransaction`: compose the entry set,
then post it through `createTransaction`. -/
def createTransferTransaction (oracle : Oracle) (db : DB)
    (input : CurrencyTransferTransaction) : Except Err (DB × List BalanceWrite) :=
  match transferInput oracle db input with
  | .error e => .error e
  | .ok txInput => createTransaction oracle db txInput

end Part007

namespace LibAccounting

/-- `AccountingService.validateDoubleEntry` (src/src/lib/accounting.ts,
lines 47-53): exact equality of raw debit and credit sums, no tolerance,
no currency handling. -/
def validateDoubleEntry (entries : List TransactionEntryInput) : Bool :=
  decide (sumDebits entries = sumCredits entries)

/-- The type-aware new balance computed by `LibAccounting.createTransaction`
(src/src/lib/accounting.ts, lines 98-116): DEBIT adds for ASSET/EXPENSE and
subtracts otherwise; CREDIT is the mirror image. -/
def libNewBalance (account : Account) (e : TransactionEntryInput) : ℚ :=
  if e.entryType = EntryType.DEBIT then
    if account.type = AccountType.ASSET ∨ account.type = AccountType.EXPENSE then
      account.balance + e.amount
    else account.balance - e.amount
  else
    if account.type = AccountType.ASSET ∨ account.type = AccountType.EXPENSE then
      account.balance - e.amount
    else account.balance + e.amount

/-- The balance-update loop of `LibAccounting.createTransaction` (lines
88-122): read the account (throw if missing), compute the type-aware new
balance, write it back as an absolute value. -/
def applyBalanceUpdates : DB → List TransactionEntryInput →
    Except Err (DB × List BalanceWrite)
  | db, [] => .ok (db, [])
  | db, e :: rest =>
    match findAccount db e.accountId with
    | none => .error .accountNotFound
    | some account =>
      let v := libNewBalance account e
      match applyBalanceUpdates { db with accounts := setBalance db.accounts e.accountId v } rest with
      | .ok (db2, ws) => .ok (db2, .setValue e.accountId v :: ws)
      | .error err => .error err

/-- The `$transaction` body of `LibAccounting.createTransaction` (lines
61-125). -/
def runTxBody (db : DB) (input : TransactionInput) :
    Except Err (DB × List BalanceWrite) :=
  let db1 := { db with
                transactions := db.transactions ++ [mkTxRec db input],
                txEntries := db.txEntries ++ input.entries.map (mkEntryRecLib db.nextId),
                nextId := db.nextId + 1 }
  applyBalanceUpdates db1 input.entries

/-- `AccountingService.createTransaction` (src/src/lib/accounting.ts, lines
56-126). -/
def createTransaction (db : DB) (input : TransactionInput) :
    Except Err (DB × List BalanceWrite) :=
  if validateDoubleEntry input.entries then runTxBody db input
  else .error .unbalancedEntry

end LibAccounting

/-! ## CurrencyService (src/src/lib/currency.ts)

Timestamps are `ℕ` milliseconds. `dayString` models
`toISOString().split("T")[0]` (the calendar day), `dateOfDayString` models
`new Date(dateStr)` (midnight of that day). The quote sources are an
abstract `RateApi`: `fetchExchangeRates(base)` either fails on both
endpoints (`none`) or yields a lowercase-keyed rate table. -/

def msPerDay : ℕ := 86400000

/-- `date.toISOString().split("T")[0]`, as a calendar-day index. -/
def dayString (t : ℕ) : ℕ := t / msPerDay

/-- `new Date(dateStr)` for a calendar-day string: midnight of that day. -/
def dateOfDayString (d : ℕ) : ℕ := d * msPerDay

/-- An `exchange_rates` row; `(fromCurrency, toCurrency, date)` is the
store's unique key. -/
structure ExchangeRateRow where
  fromCurrency : String
  toCurrency : String
  rate : ℚ
  date : ℕ
deriving DecidableEq

/-- The outcome of `fetchExchangeRates(base)` for each lowercase base:
`none` when both quote endpoints fail, otherwise the lowercase-keyed
rate table. -/
abbrev RateApi := String → Option (List (String × ℚ))

inductive CurrencyError
  | rateUnavailable
  | duplicateKey
deriving DecidableEq

/-- `prisma.exchangeRate.findUnique` on the
`(fromCurrency, toCurrency, date)` unique key. -/
def findUniqueRate (db : List ExchangeRateRow) (f t : String) (d : ℕ) :
    Option ExchangeRateRow :=
  db.find? (fun r => decide (r.fromCurrency = f) && decide (r.toCurrency = t) &&
    decide (r.date = d))

/-- `rateData.rates[key]` with JS truthiness: an absent or zero rate is
falsy and triggers the rate-not-found throw. -/
def ratesLookup (table : Option (List (String × ℚ))) (key : String) : Option ℚ :=
  match table with
  | none => none
  | some rows =>
    match (rows.find? (fun p => decide (p.1 = key))).map (fun p => p.2) with
    | none => none
    | some r => if r = 0 then none else some r

/-- `CurrencyService.getExchangeRate` (src/src/lib/currency.ts, lines
69-117) with the cache writes interleaved against a possibly concurrent
writer: `dbRead` is the cache snapshot the `findUnique` lookup sees,
`dbWrite` the snapshot the final `create` executes against (they coincide
in an uncontended run, see `getExchangeRate`). The `create` is a plain
insert: it fails with a duplicate-key error when the unique key is already
present. -/
def getExchangeRateRaced (api : RateApi) (dbRead dbWrite : List ExchangeRateRow)
    (fromCurrency toCurrency : String) (now : ℕ) :
    Except CurrencyError (ℚ × List ExchangeRateRow) :=
  let normalizedFrom := jsToUpper fromCurrency
  let normalizedTo := jsToUpper toCurrency
  if normalizedFrom = normalizedTo then .ok (1, dbWrite)
  else
    let keyDate := dateOfDayString (dayString now)
    match findUniqueRate dbRead normalizedFrom normalizedTo keyDate with
    | some existingRate => .ok (existingRate.rate, dbWrite)
    | none =>
      match ratesLookup (api (jsToLower normalizedFrom)) (jsToLower normalizedTo) with
      | none => .error .rateUnavailable
      | some rate =>
        match findUniqueRate dbWrite normalizedFrom normalizedTo keyDate with
        | some _ => .error .duplicateKey
        | none =>
          .ok (rate, dbWrite ++
            [{ fromCurrency := normalizedFrom, toCurrency := normalizedTo,
               rate := rate, date := keyDate }])

/-- `CurrencyService.getExchangeRate` in an uncontended run: read and write
see the same cache. -/
def getExchangeRate (api : RateApi) (db : List ExchangeRateRow)
    (fromCurrency toCurrency : String) (now : ℕ) :
    Except CurrencyError (ℚ × List ExchangeRateRow) :=
  getExchangeRateRaced api db db fromCurrency toCurrency now

/-- `prisma.exchangeRate.upsert` on the `(fromCurrency, toCurrency, date)`
unique key: update the matching row's rate, or create the row. -/
def upsertRate (db : List ExchangeRateRow) (f t : String) (rate : ℚ) (d : ℕ) :
    List ExchangeRateRow :=
  match findUniqueRate db f t d with
  | some _ =>
    db.map (fun r =>
      if decide (r.fromCurrency = f) && decide (r.toCurrency = t) && decide (r.date = d)
      then { r with rate := rate } else r)
  | none => db ++ [{ fromCurrency := f, toCurrency := t, rate := rate, date := d }]

/-- `CurrencyService.updateExchangeRates` (src/src/lib/currency.ts, lines
186-216): fetch the full table for the base (abort with the fetch error on
failure, before any write), then upsert every pair keyed at
`date = new Date()` — the full current timestamp `now`, not the truncated
calendar day used by `getExchangeRate`. -/
def updateExchangeRates (api : RateApi) (db : List ExchangeRateRow)
    (baseCurrency : String) (now : ℕ) : Except CurrencyError (List ExchangeRateRow) :=
  match api (jsToLower baseCurrency) with
  | none => .error .rateUnavailable
  | some table =>
    .ok (table.foldl (fun acc p => upsertRate acc (jsToUpper baseCurrency) (jsToUpper p.1) p.2 now) db)

/-! ## Generic list lemmas -/

/-- `find?` commutes with a map that does not change whether an element
matches. -/
theorem find?_map_of_pres {α : Type} (f : α → α) (p : α → Bool)
    (hf : ∀ x, p (f x) = p x) :
    ∀ l : List α, (l.map f).find? p = (l.find? p).map f := by
  intro l
  have hpf : p ∘ f = p := funext hf
  rw [List.find?_map, hpf]

/-- Appending a matching element behind a list with no match makes it the
`find?` result. -/
theorem find?_append_single_of_none {α : Type} (p : α → Bool) (x : α)
    (l : List α) (h : l.find? p = none) (hx : p x = true) :
    (l ++ [x]).find? p = some x := by
  rw [List.find?_append, h, List.find?_cons_of_pos _ hx]
  rfl

theorem mem_jsSetDedup_aux (l : List String) :
    ∀ (acc : List String) (x : String),
      (x ∈ l.foldl (fun acc y => if y ∈ acc then acc else acc ++ [y]) acc) ↔
        (x ∈ acc ∨ x ∈ l) := by
  induction l with
  | nil => intro acc x; simp [List.foldl]
  | cons y ys ih =>
    intro acc x
    rw [List.foldl_cons, ih]
    by_cases hy : y ∈ acc
    · simp only [if_pos hy, List.mem_cons]
      constructor
      · rintro (h | h)
        · exact Or.inl h
        · exact Or.inr (Or.inr h)
      · rintro (h | h | h)
        · exact Or.inl h
        · exact Or.inl (h ▸ hy)
        · exact Or.inr h
    · simp only [if_neg hy, List.mem_append, List.mem_singleton, List.mem_cons]
      tauto

/-- Membership in `jsSetDedup` is membership in the underlying list. -/
theorem mem_jsSetDedup (l : List String) (x : String) :
    x ∈ jsSetDedup l ↔ x ∈ l := by
  rw [jsSetDedup, mem_jsSetDedup_aux]
  simp

theorem jsSetDedup_const_aux (c : String) (l : List String) (h : ∀ x ∈ l, x = c) :
    ∀ acc : List String, acc = [] ∨ acc = [c] →
      (l.foldl (fun acc y => if y ∈ acc then acc else acc ++ [y]) acc) = [] ∨
      (l.foldl (fun acc y => if y ∈ acc then acc else acc ++ [y]) acc) = [c] := by
  induction l with
  | nil => intro acc hacc; exact hacc
  | cons y ys ih =>
    intro acc hacc
    have hy : y = c := h y (List.mem_cons_self y ys)
    have hrest : ∀ x ∈ ys, x = c := fun x hx => h x (List.mem_cons_of_mem y hx)
    rw [List.foldl_cons]
    refine ih hrest _ ?_
    rcases hacc with hacc | hacc
    · subst hacc
      simp [hy]
    · subst hacc
      simp [hy]

/-- A list whose elements are all equal dedups to at most one element. -/
theorem jsSetDedup_const (c : String) (l : List String) (h : ∀ x ∈ l, x = c) :
    (jsSetDedup l).length ≤ 1 := by
  rw [jsSetDedup]
  rcases jsSetDedup_const_aux c l h [] (Or.inl rfl) with h2 | h2 <;> rw [h2] <;> simp

/-- The absolute balance written by `LibAccounting.createTransaction` is
the old balance plus the type-aware delta. -/
theorem libNewBalance_eq (a : Account) (e : TransactionEntryInput) :
    LibAccounting.libNewBalance a e = a.balance + typeAwareDelta a.type e := by
  by_cases h1 : e.entryType = EntryType.DEBIT <;>
    by_cases h2 : a.type = AccountType.ASSET ∨ a.type = AccountType.EXPENSE <;>
    simp [LibAccounting.libNewBalance, typeAwareDelta, h1, h2, sub_eq_add_neg]

/-- A found account carries the looked-up id. -/
theorem findAccount_id {db : DB} {i : String} {a : Account}
    (h : findAccount db i = some a) : a.id = i := by
  rw [findAccount] at h
  have h2 := List.find?_some h
  simpa using h2

/-- `findAccount` after an `increment`-style balance update. -/
theorem findAccount_incBalance (db : DB) (j : String) (δ : ℚ) (i : String) :
    findAccount { db with accounts := incBalance db.accounts j δ } i =
      (findAccount db i).map
        (fun a => if a.id = j then { a with balance := a.balance + δ } else a) := by
  show (db.accounts.map _).find? _ = _
  exact find?_map_of_pres _ _
    (fun x => by by_cases hx : x.id = j <;> simp [hx]) db.accounts

/-- `findAccount` after an absolute balance write. -/
theorem findAccount_setBalance (db : DB) (j : String) (v : ℚ) (i : String) :
    findAccount { db with accounts := setBalance db.accounts j v } i =
      (findAccount db i).map
        (fun a => if a.id = j then { a with balance := v } else a) := by
  show (db.accounts.map _).find? _ = _
  exact find?_map_of_pres _ _
    (fun x => by by_cases hx : x.id = j <;> simp [hx]) db.accounts

/-- Success-case characterization of the part_007 balance-update loop:
every account's balance moves by its net plain-signed delta. -/
theorem applyBalanceUpdatesP7_ok_findAccount :
    ∀ (es : List TransactionEntryInput) (db db2 : DB) (ws : List BalanceWrite),
      Part007.applyBalanceUpdates db es = .ok (db2, ws) →
      ∀ i, findAccount db2 i =
        (findAccount db i).map
          (fun a => { a with balance := a.balance + netDeltaP7 i es }) := by
  intro es
  induction es with
  | nil =>
    intro db db2 ws h i
    simp only [Part007.applyBalanceUpdates, Except.ok.injEq, Prod.mk.injEq] at h
    obtain ⟨h1, -⟩ := h
    subst h1
    cases hfa : findAccount db i <;> simp [netDeltaP7]
  | cons e rest ih =>
    intro db db2 ws h i
    simp only [Part007.applyBalanceUpdates] at h
    cases hfa : findAccount db e.accountId with
    | none => rw [hfa] at h; exact absurd h (by simp)
    | some a0 =>
      rw [hfa] at h
      set db1 : DB :=
        { db with accounts := incBalance db.accounts e.accountId (signedAmount e) } with hdb1
      cases hrec : Part007.applyBalanceUpdates db1 rest with
      | error err => rw [hrec] at h; exact absurd h (by simp)
      | ok p =>
        obtain ⟨db2', ws'⟩ := p
        rw [hrec] at h
        simp only [Except.ok.injEq, Prod.mk.injEq] at h
        obtain ⟨h1, -⟩ := h
        subst h1
        have hmid := ih db1 _ _ hrec i
        rw [hmid, hdb1, findAccount_incBalance, Option.map_map]
        cases hfa2 : findAccount db i with
        | none => rfl
        | some a =>
          have ha : a.id = i := findAccount_id hfa2
          simp only [Option.map_some', Function.comp_apply]
          by_cases hij : a.id = e.accountId
          · rw [if_pos hij]
            have hei : e.accountId = i := hij.symm.trans ha
            simp only [netDeltaP7, if_pos hei]
            congr 1
            rw [add_assoc]
          · rw [if_neg hij]
            have hei : ¬(e.accountId = i) := fun hc => hij (ha.trans hc.symm)
            simp only [netDeltaP7, if_neg hei, zero_add]

/-- Success-case characterization of the lib/accounting.ts balance-update
loop: every account's balance moves by its net type-aware delta. -/
theorem applyBalanceUpdatesLib_ok_findAccount :
    ∀ (es : List TransactionEntryInput) (db db2 : DB) (ws : List BalanceWrite),
      LibAccounting.applyBalanceUpdates db es = .ok (db2, ws) →
      ∀ i, findAccount db2 i =
        (findAccount db i).map
          (fun a => { a with balance := a.balance + netDeltaLib a.type i es }) := by
  intro es
  induction es with
  | nil =>
    intro db db2 ws h i
    simp only [LibAccounting.applyBalanceUpdates, Except.ok.injEq, Prod.mk.injEq] at h
    obtain ⟨h1, -⟩ := h
    subst h1
    cases hfa : findAccount db i <;> simp [netDeltaLib]
  | cons e rest ih =>
    intro db db2 ws h i
    simp only [LibAccounting.applyBalanceUpdates] at h
    cases hfa : findAccount db e.accountId with
    | none => rw [hfa] at h; exact absurd h (by simp)
    | some a0 =>
      simp only [hfa] at h
      set db1 : DB :=
        { db with accounts :=
            setBalance db.accounts e.accountId (LibAccounting.libNewBalance a0 e) } with hdb1
      cases hrec : LibAccounting.applyBalanceUpdates db1 rest with
      | error err => rw [hrec] at h; exact absurd h (by simp)
      | ok p =>
        obtain ⟨db2', ws'⟩ := p
        rw [hrec] at h
        simp only [Except.ok.injEq, Prod.mk.injEq] at h
        obtain ⟨h1, -⟩ := h
        subst h1
        have hmid := ih db1 _ _ hrec i
        rw [hmid, hdb1, findAccount_setBalance, Option.map_map]
        cases hfa2 : findAccount db i with
        | none => rfl
        | some a =>
          have ha : a.id = i := findAccount_id hfa2
          simp only [Option.map_some', Function.comp_apply]
          by_cases hij : a.id = e.accountId
          · have hei : e.accountId = i := hij.symm.trans ha
            have haa : a0 = a := by
              rw [hei] at hfa
              exact Option.some.inj (hfa.symm.trans hfa2)
            rw [if_pos hij]
            simp only [netDeltaLib, if_pos hei]
            rw [libNewBalance_eq, haa]
            congr 1
            rw [add_assoc]
          · rw [if_neg hij]
            have hei : ¬(e.accountId = i) := fun hc => hij (ha.trans hc.symm)
            simp only [netDeltaLib, if_neg hei, zero_add]

/-- The part_007 balance-update loop touches only `accounts`, and every
write it issues is an `increment`. -/
theorem applyBalanceUpdatesP7_ok_fields :
    ∀ (es : List TransactionEntryInput) (db db2 : DB) (ws : List BalanceWrite),
      Part007.applyBalanceUpdates db es = .ok (db2, ws) →
      db2.transactions = db.transactions ∧ db2.txEntries = db.txEntries ∧
        ws.all BalanceWrite.isIncrement = true := by
  intro es
  induction es with
  | nil =>
    intro db db2 ws h
    simp only [Part007.applyBalanceUpdates, Except.ok.injEq, Prod.mk.injEq] at h
    obtain ⟨h1, h2⟩ := h
    subst h1
    subst h2
    exact ⟨rfl, rfl, rfl⟩
  | cons e rest ih =>
    intro db db2 ws h
    simp only [Part007.applyBalanceUpdates] at h
    cases hfa : findAccount db e.accountId with
    | none => rw [hfa] at h; exact absurd h (by simp)
    | some a0 =>
      simp only [hfa] at h
      set db1 : DB :=
        { db with accounts := incBalance db.accounts e.accountId (signedAmount e) } with hdb1
      cases hrec : Part007.applyBalanceUpdates db1 rest with
      | error err => rw [hrec] at h; exact absurd h (by simp)
      | ok p =>
        obtain ⟨db2', ws'⟩ := p
        rw [hrec] at h
        simp only [Except.ok.injEq, Prod.mk.injEq] at h
        obtain ⟨h1, h2⟩ := h
        subst h1
        subst h2
        obtain ⟨hx, hy, hz⟩ := ih db1 _ _ hrec
        refine ⟨hx, hy, ?_⟩
        simp only [List.all_cons, hz, BalanceWrite.isIncrement, Bool.and_true]

/-- The lib/accounting.ts balance-update loop touches only `accounts`, and
every write it issues is an absolute `setValue`. -/
theorem applyBalanceUpdatesLib_ok_fields :
    ∀ (es : List TransactionEntryInput) (db db2 : DB) (ws : List BalanceWrite),
      LibAccounting.applyBalanceUpdates db es = .ok (db2, ws) →
      db2.transactions = db.transactions ∧ db2.txEntries = db.txEntries ∧
        ws.all BalanceWrite.isSetValue = true := by
  intro es
  induction es with
  | nil =>
    intro db db2 ws h
    simp only [LibAccounting.applyBalanceUpdates, Except.ok.injEq, Prod.mk.injEq] at h
    obtain ⟨h1, h2⟩ := h
    subst h1
    subst h2
    exact ⟨rfl, rfl, rfl⟩
  | cons e rest ih =>
    intro db db2 ws h
    simp only [LibAccounting.applyBalanceUpdates] at h
    cases hfa : findAccount db e.accountId with
    | none => rw [hfa] at h; exact absurd h (by simp)
    | some a0 =>
      simp only [hfa] at h
      set db1 : DB :=
        { db with accounts :=
            setBalance db.accounts e.accountId (LibAccounting.libNewBalance a0 e) } with hdb1
      cases hrec : LibAccounting.applyBalanceUpdates db1 rest with
      | error err => rw [hrec] at h; exact absurd h (by simp)
      | ok p =>
        obtain ⟨db2', ws'⟩ := p
        rw [hrec] at h
        simp only [Except.ok.injEq, Prod.mk.injEq] at h
        obtain ⟨h1, h2⟩ := h
        subst h1
        subst h2
        obtain ⟨hx, hy, hz⟩ := ih db1 _ _ hrec
        refine ⟨hx, hy, ?_⟩
        simp only [List.all_cons, hz, BalanceWrite.isSetValue, Bool.and_true]

/-! ## Concrete fixtures -/

/-- A resolver oracle on which every rate lookup fails. -/
def oracleFail : Oracle := fun _ _ => .error ()

def dbC1 : DB :=
  { accounts := [ { id := "loan", type := .LIABILITY, balance := 100, currency := "USD" },
                  { id := "cash", type := .ASSET, balance := 500, currency := "USD" } ],
    tags := [], tagBalances := [], transactions := [], txEntries := [], nextId := 0 }

def inputC1 : TransactionInput :=
  { description := "debit a liability", amount := 30, tagId := none,
    transactionType := .TRANSFER,
    entries := [ { accountId := "loan", entryType := .DEBIT, amount := 30,
                   originalAmount := none, originalCurrency := none, exchangeRate := none },
                 { accountId := "cash", entryType := .CREDIT, amount := 30,
                   originalAmount := none, originalCurrency := none, exchangeRate := none } ] }

def dbW1 : DB :=
  { accounts := [ { id := "checking", type := .ASSET, balance := 10000, currency := "LKR" },
                  { id := "salary", type := .INCOME, balance := 0, currency := "LKR" } ],
    tags := [], tagBalances := [], transactions := [], txEntries := [], nextId := 0 }

def inputW1 : TransactionInput :=
  { description := "salary income", amount := 5000, tagId := none,
    transactionType := .INCOME,
    entries := [ { accountId := "checking", entryType := .DEBIT, amount := 5000,
                   originalAmount := none, originalCurrency := none, exchangeRate := none },
                 { accountId := "salary", entryType := .CREDIT, amount := 5000,
                   originalAmount := none, originalCurrency := none, exchangeRate := none } ] }

def dbC2 : DB :=
  { accounts := [ { id := "checking", type := .ASSET, balance := 10000, currency := "USD" },
                  { id := "salary", type := .INCOME, balance := 0, currency := "USD" } ],
    tags := [], tagBalances := [], transactions := [], txEntries := [], nextId := 0 }

def inputC2 : TransactionInput :=
  { description := "income", amount := 5000, tagId := none,
    transactionType := .INCOME,
    entries := [ { accountId := "checking", entryType := .DEBIT, amount := 5000,
                   originalAmount := none, originalCurrency := none, exchangeRate := none },
                 { accountId := "salary", entryType := .CREDIT, amount := 5000,
                   originalAmount := none, originalCurrency := none, exchangeRate := none } ] }

def dbW2 : DB :=
  { accounts := [ { id := "a1", type := .ASSET, balance := 100, currency := "EUR" },
                  { id := "a2", type := .ASSET, balance := 50, currency := "EUR" } ],
    tags := [], tagBalances := [], transactions := [], txEntries := [], nextId := 7 }

def inputW2 : TransactionInput :=
  { description := "move", amount := 20, tagId := none,
    transactionType := .TRANSFER,
    entries := [ { accountId := "a2", entryType := .DEBIT, amount := 20,
                   originalAmount := none, originalCurrency := none, exchangeRate := none },
                 { accountId := "a1", entryType := .CREDIT, amount := 20,
                   originalAmount := none, originalCurrency := none, exchangeRate := none } ] }

/-! ## Claim C1 -/

/-- Claim C1, counterexample: the claim says every code path that posts
transactions applies the type-aware convention, under which a DEBIT of 30
on a LIABILITY account of balance 100 yields 70. The part_007
`createTransaction` path commits and leaves the liability account at
100 + 30 = 130, not 100 - 30. -/
theorem claim_C1_counterexample :
    (Part007.createTransaction oracleFail dbC1 inputC1).toOption.isSome = true ∧
    (findAccount (commitResult (Part007.createTransaction oracleFail dbC1 inputC1) dbC1)
        "loan").map (fun a => a.balance) = some 130 ∧
    ¬((100 : ℚ) - 30 = 130) := by
  exact ⟨by decide, by decide, by decide⟩

/-- Claim C1 (amended): the lib/accounting.ts Executor applies the
type-aware normal-balance convention — a committed entry moves each
account's balance by its net type-aware delta (DEBIT adds for
ASSET/EXPENSE and subtracts for LIABILITY/INCOME, CREDIT mirrored) — while
the part_007 Executor applies the plain-signed convention: every DEBIT
adds its amount to the referenced account's balance and every CREDIT
subtracts it, regardless of the account type. -/
theorem claim_C1 (oracle : Oracle) (db : DB) (input : TransactionInput) :
    (∀ db2 ws, LibAccounting.createTransaction db input = .ok (db2, ws) →
      ∀ i, findAccount db2 i =
        (findAccount db i).map
          (fun a => { a with balance := a.balance + netDeltaLib a.type i input.entries }))
  ∧ (∀ db2 ws, Part007.createTransaction oracle db input = .ok (db2, ws) →
      ∀ i, findAccount db2 i =
        (findAccount db i).map
          (fun a => { a with balance := a.balance + netDeltaP7 i input.entries })) := by
  constructor
  · intro db2 ws h i
    simp only [LibAccounting.createTransaction] at h
    by_cases hv : LibAccounting.validateDoubleEntry input.entries
    · rw [if_pos hv] at h
      simp only [LibAccounting.runTxBody] at h
      have hchar := applyBalanceUpdatesLib_ok_findAccount input.entries _ _ _ h i
      rw [hchar]
      rfl
    · rw [if_neg hv] at h
      exact absurd h (by simp)
  · intro db2 ws h i
    simp only [Part007.createTransaction] at h
    by_cases hv : Part007.validateDoubleEntry oracle db input.entries
    · rw [if_pos hv] at h
      simp only [Part007.runTxBody] at h
      have hchar := applyBalanceUpdatesP7_ok_findAccount input.entries _ _ _ h i
      rw [hchar]
      rfl
    · rw [if_neg hv] at h
      exact absurd h (by simp)

/-- Claim C1, witness: the amended theorem applied to a concrete
lib/accounting.ts income posting. -/
theorem claim_C1_witness :
    findAccount (commitResult (LibAccounting.createTransaction dbW1 inputW1) dbW1)
        "checking" =
      (findAccount dbW1 "checking").map
        (fun a => { a with balance := a.balance + netDeltaLib a.type "checking" inputW1.entries }) := by
  have hsome : (LibAccounting.createTransaction dbW1 inputW1).toOption.isSome = true := by
    decide
  cases hr : LibAccounting.createTransaction dbW1 inputW1 with
  | error e => rw [hr] at hsome; simp [Except.toOption] at hsome
  | ok p =>
    obtain ⟨db2, ws⟩ := p
    exact (claim_C1 oracleFail dbW1 inputW1).1 db2 ws hr "checking"

/-! ## Claim C2 -/

/-- Claim C2, counterexample: the claim says balance changes are applied
as atomic deltas, never as a separate read-then-write, in every call to
`createTransaction`. The lib/accounting.ts path commits this concrete
income posting through two absolute balance writes (values computed from a
prior read of each account), not through increments. -/
theorem claim_C2_counterexample :
    (LibAccounting.createTransaction dbC2 inputC2).toOption.map (fun p => p.2) =
      some [BalanceWrite.setValue "checking" 15000, BalanceWrite.setValue "salary" 5000] ∧
    ([BalanceWrite.setValue "checking" 15000,
      BalanceWrite.setValue "salary" 5000].all BalanceWrite.isIncrement) = false := by
  exact ⟨by decide, by decide⟩

/-- Claim C2 (amended): both `createTransaction` implementations run the
header insert, the entry inserts and the balance updates in one
all-or-nothing `$transaction` scope — a failed validation surfaces
`unbalancedEntry` before any write, any error leaves the observable state
equal to the pre-state, and a success commits the header row, every entry
row, and the balance updates. The part_007 path applies every balance
change as an atomic `increment` delta, but the lib/accounting.ts path
applies every balance change as an absolute value written after a separate
read of the account. -/
theorem claim_C2 (oracle : Oracle) (db : DB) (input : TransactionInput) :
    (Part007.validateDoubleEntry oracle db input.entries = false →
      Part007.createTransaction oracle db input = .error .unbalancedEntry)
  ∧ (∀ e, Part007.createTransaction oracle db input = .error e →
      commitResult (Part007.createTransaction oracle db input) db = db)
  ∧ (∀ db2 ws, Part007.createTransaction oracle db input = .ok (db2, ws) →
      db2.transactions = db.transactions ++ [mkTxRec db input] ∧
      db2.txEntries = db.txEntries ++ input.entries.map (mkEntryRec db.nextId) ∧
      ws.all BalanceWrite.isIncrement = true)
  ∧ (∀ e, LibAccounting.createTransaction db input = .error e →
      commitResult (LibAccounting.createTransaction db input) db = db)
  ∧ (∀ db2 ws, LibAccounting.createTransaction db input = .ok (db2, ws) →
      db2.transactions = db.transactions ++ [mkTxRec db input] ∧
      db2.txEntries = db.txEntries ++ input.entries.map (mkEntryRecLib db.nextId) ∧
      ws.all BalanceWrite.isSetValue = true) := by
  refine ⟨?_, ?_, ?_, ?_, ?_⟩
  · intro hv
    rw [Part007.createTransaction, if_neg (by simp [hv])]
  · intro e he
    rw [he]
    rfl
  · intro db2 ws h
    simp only [Part007.createTransaction] at h
    by_cases hv : Part007.validateDoubleEntry oracle db input.entries
    · rw [if_pos hv] at h
      simp only [Part007.runTxBody] at h
      exact applyBalanceUpdatesP7_ok_fields input.entries _ _ _ h
    · rw [if_neg hv] at h
      exact absurd h (by simp)
  · intro e he
    rw [he]
    rfl
  · intro db2 ws h
    simp only [LibAccounting.createTransaction] at h
    by_cases hv : LibAccounting.validateDoubleEntry input.entries
    · rw [if_pos hv] at h
      simp only [LibAccounting.runTxBody] at h
      exact applyBalanceUpdatesLib_ok_fields input.entries _ _ _ h
    · rw [if_neg hv] at h
      exact absurd h (by simp)

/-- Claim C2, witness: the amended theorem applied to a concrete part_007
transfer — the committed state holds the header and the balance writes are
all increments. -/
theorem claim_C2_witness :
    (commitResult (Part007.createTransaction oracleFail dbW2 inputW2) dbW2).transactions =
      dbW2.transactions ++ [mkTxRec dbW2 inputW2] ∧
    (Part007.createTransaction oracleFail dbW2 inputW2).toOption.map
        (fun p => p.2.all BalanceWrite.isIncrement) = some true := by
  have hsome : (Part007.createTransaction oracleFail dbW2 inputW2).toOption.isSome = true := by
    decide
  cases hr : Part007.createTransaction oracleFail dbW2 inputW2 with
  | error e => rw [hr] at hsome; simp [Except.toOption] at hsome
  | ok p =>
    obtain ⟨db2, ws⟩ := p
    obtain ⟨h1, -, h3⟩ := ((claim_C2 oracleFail dbW2 inputW2).2.2.1) db2 ws hr
    exact ⟨h1, by simp [Except.toOption, h3]⟩

/-! ## Claim C8 -/

/-- When every entry's account is found and carries currency `c`, the
part_007 validator takes its single-currency branch: it compares the raw
sums with strict tolerance `< 0.01`. -/
theorem validateDoubleEntryP7_single_currency (oracle : Oracle) (db : DB)
    (entries : List TransactionEntryInput) (c : String)
    (hshare : ∀ e ∈ entries,
      (findAccount db e.accountId).map (fun a => a.currency) = some c) :
    Part007.validateDoubleEntry oracle db entries =
      decide (|sumDebits entries - sumCredits entries| < 1 / 100) := by
  have hall : ∀ x ∈ ((Part007.lookedUpAccounts db entries).filterMap id).map
      (fun a => a.currency), x = c := by
    intro x hx
    obtain ⟨acc, hacc, rfl⟩ := List.mem_map.1 hx
    obtain ⟨o, ho, hoeq⟩ := List.mem_filterMap.1 hacc
    rw [Part007.lookedUpAccounts] at ho
    obtain ⟨i, hi, hio⟩ := List.mem_map.1 ho
    obtain ⟨e, he, hei⟩ := List.mem_map.1 ((mem_jsSetDedup _ _).1 hi)
    have hc := hshare e he
    rw [hei, hio] at hc
    have : o = some acc := hoeq
    rw [this] at hc
    simpa using hc
  have hlen : (Part007.foundCurrencies db entries).length ≤ 1 :=
    jsSetDedup_const c _ hall
  rw [Part007.validateDoubleEntry, if_pos hlen]

def dbC8 : DB :=
  { accounts := [ { id := "c8a", type := .ASSET, balance := 100, currency := "USD" },
                  { id := "c8b", type := .ASSET, balance := 100, currency := "USD" } ],
    tags := [], tagBalances := [], transactions := [], txEntries := [], nextId := 0 }

def entriesC8a : List TransactionEntryInput :=
  [ { accountId := "c8a", entryType := .DEBIT, amount := 201 / 200,
      originalAmount := none, originalCurrency := none, exchangeRate := none },
    { accountId := "c8b", entryType := .CREDIT, amount := 1,
      originalAmount := none, originalCurrency := none, exchangeRate := none } ]

def entriesC8b : List TransactionEntryInput :=
  [ { accountId := "c8a", entryType := .DEBIT, amount := 101 / 100,
      originalAmount := none, originalCurrency := none, exchangeRate := none },
    { accountId := "c8b", entryType := .CREDIT, amount := 1,
      originalAmount := none, originalCurrency := none, exchangeRate := none } ]

/-- Claim C8, counterexample: the claim says every validating code path
accepts exactly when the raw sums differ by at most 0.01. The
lib/accounting.ts validator rejects a same-currency entry set whose sums
differ by 0.005, and the part_007 validator rejects one whose sums differ
by exactly 0.01 — both differences are at most the tolerance. -/
theorem claim_C8_counterexample :
    (LibAccounting.validateDoubleEntry entriesC8a = false ∧
      |sumDebits entriesC8a - sumCredits entriesC8a| ≤ 1 / 100) ∧
    (Part007.validateDoubleEntry oracleFail dbC8 entriesC8b = false ∧
      |sumDebits entriesC8b - sumCredits entriesC8b| ≤ 1 / 100) := by
  exact ⟨⟨by decide, by decide⟩, ⟨by decide, by decide⟩⟩

/-- Claim C8 (amended): when every referenced account exists and shares
one currency, the part_007 validator accepts exactly when the raw debit
and credit sums differ by strictly less than 0.01, while the
lib/accounting.ts validator accepts exactly when the raw sums are exactly
equal (no tolerance). -/
theorem claim_C8 (oracle : Oracle) (db : DB)
    (entries : List TransactionEntryInput) (c : String)
    (hshare : ∀ e ∈ entries,
      (findAccount db e.accountId).map (fun a => a.currency) = some c) :
    (Part007.validateDoubleEntry oracle db entries = true ↔
      |sumDebits entries - sumCredits entries| < 1 / 100)
  ∧ (LibAccounting.validateDoubleEntry entries = true ↔
      sumDebits entries = sumCredits entries) := by
  constructor
  · rw [validateDoubleEntryP7_single_currency oracle db entries c hshare]
    simp
  · rw [LibAccounting.validateDoubleEntry]
    simp

def dbW8 : DB :=
  { accounts := [ { id := "w8a", type := .ASSET, balance := 0, currency := "USD" },
                  { id := "w8b", type := .INCOME, balance := 0, currency := "USD" } ],
    tags := [], tagBalances := [], transactions := [], txEntries := [], nextId := 0 }

def entriesW8 : List TransactionEntryInput :=
  [ { accountId := "w8a", entryType := .DEBIT, amount := 10,
      originalAmount := none, originalCurrency := none, exchangeRate := none },
    { accountId := "w8b", entryType := .CREDIT, amount := 10,
      originalAmount := none, originalCurrency := none, exchangeRate := none } ]

/-- Claim C8, witness: the amended theorem applied to a concrete balanced
same-currency entry set. -/
theorem claim_C8_witness :
    (Part007.validateDoubleEntry oracleFail dbW8 entriesW8 = true ↔
      |sumDebits entriesW8 - sumCredits entriesW8| < 1 / 100)
  ∧ (LibAccounting.validateDoubleEntry entriesW8 = true ↔
      sumDebits entriesW8 = sumCredits entriesW8) :=
  claim_C8 oracleFail dbW8 entriesW8 "USD" (by decide)

/-! ## Claim C3 -/

/-- Under an always-failing resolver, the valuation loop of the part_007
validator degrades every entry to its raw amount: each conversion failure
is caught and `entry.amount` used unchanged. -/
theorem vstep_foldl_raw (oracle : Oracle) (db : DB) (base : String)
    (horacle : ∀ f t, oracle f t = .error ()) :
    ∀ es : List TransactionEntryInput, (∀ e ∈ es, e.exchangeRate = none) →
      (∀ e ∈ es, (findAccount db e.accountId).isSome = true) →
      ∀ d c : ℚ, es.foldl (Part007.vstep oracle db base) (d, c) =
        (d + sumDebits es, c + sumCredits es) := by
  intro es
  induction es with
  | nil => intro _ _ d c; simp [sumDebits, sumCredits]
  | cons e rest ih =>
    intro hrate hfound d c
    have hre : e.exchangeRate = none := hrate e (List.mem_cons_self e rest)
    have hstep : Part007.vstep oracle db base (d, c) e =
        (if e.entryType = EntryType.DEBIT then (d + e.amount, c) else (d, c + e.amount)) := by
      rw [Part007.vstep]
      cases hfa : findAccount db e.accountId with
      | none =>
        have hf := hfound e (List.mem_cons_self e rest)
        rw [hfa] at hf
        exact absurd hf (by simp)
      | some a =>
        by_cases hcur : a.currency = base
        · simp [hcur]
        · simp [hcur, hre, jsTruthyQ, convertCurrencyO, horacle]
    rw [List.foldl_cons, hstep]
    have hrate2 : ∀ x ∈ rest, x.exchangeRate = none :=
      fun x hx => hrate x (List.mem_cons_of_mem e hx)
    have hfound2 : ∀ x ∈ rest, (findAccount db x.accountId).isSome = true :=
      fun x hx => hfound x (List.mem_cons_of_mem e hx)
    by_cases hdc : e.entryType = EntryType.DEBIT
    · rw [if_pos hdc, ih hrate2 hfound2 (d + e.amount) c]
      simp [sumDebits, sumCredits, hdc, add_assoc]
    · have hcc : e.entryType = EntryType.CREDIT := by
        cases he : e.entryType
        · exact absurd he hdc
        · rfl
      rw [if_neg hdc, ih hrate2 hfound2 d (c + e.amount)]
      simp [sumDebits, sumCredits, hdc, hcc, add_assoc]

/-- Claim C3 (amended): when the Resolver cannot supply any rate, the
part_007 Validator does not propagate the failure — it catches the
conversion error inside `validateDoubleEntry`, uses every entry's raw
amount, and still returns a pass/fail balance verdict (so the Executor can
run and write). Only `createTransferTransaction`'s own cross-currency
resolution propagates the rate failure before any write. -/
theorem claim_C3 (oracle : Oracle) (db : DB)
    (horacle : ∀ f t, oracle f t = .error ()) :
    (∀ entries : List TransactionEntryInput,
      (∀ e ∈ entries, e.exchangeRate = none) →
      (∀ e ∈ entries, (findAccount db e.accountId).isSome = true) →
      Part007.validateDoubleEntry oracle db entries =
        decide (|sumDebits entries - sumCredits entries| < 1 / 100))
  ∧ (∀ (input : CurrencyTransferTransaction) (fa ta : Account),
      findAccount db input.fromAccountId = some fa →
      findAccount db input.toAccountId = some ta →
      ¬(jsOrS input.fromCurrency fa.currency = jsOrS input.toCurrency ta.currency) →
      input.customExchangeRate = none →
      Part007.createTransferTransaction oracle db input = .error .rateUnavailable) := by
  constructor
  · intro entries hrate hfound
    by_cases hlen : (Part007.foundCurrencies db entries).length ≤ 1
    · rw [Part007.validateDoubleEntry, if_pos hlen]
    · rw [Part007.validateDoubleEntry, if_neg hlen]
      have hloop := vstep_foldl_raw oracle db (Part007.baseCurrencyOf db entries)
        horacle entries hrate hfound 0 0
      simp only [hloop, zero_add]
  · intro input fa ta hfa hta hne hcustom
    rw [Part007.createTransferTransaction, Part007.transferInput]
    simp only [hfa, hta, hcustom]
    rw [if_neg hne]
    simp [jsTruthyQ, convertCurrencyO, horacle]

def dbC3 : DB :=
  { accounts := [ { id := "lkr-acc", type := .ASSET, balance := 0, currency := "LKR" },
                  { id := "usd-acc", type := .ASSET, balance := 1000, currency := "USD" } ],
    tags := [], tagBalances := [], transactions := [], txEntries := [], nextId := 0 }

def inputC3 : TransactionInput :=
  { description := "cross-currency with no rate", amount := 100, tagId := none,
    transactionType := .TRANSFER,
    entries := [ { accountId := "lkr-acc", entryType := .DEBIT, amount := 100,
                   originalAmount := none, originalCurrency := none, exchangeRate := none },
                 { accountId := "usd-acc", entryType := .CREDIT, amount := 100,
                   originalAmount := none, originalCurrency := none, exchangeRate := none } ] }

/-- Claim C3, counterexample: a multi-currency entry set whose valuation
needs a rate the Resolver cannot supply. The claim says composition fails
with `RateUnavailable` and the Executor never runs; instead the validator
returns a pass verdict and `createTransaction` commits, changing the
LKR account's balance. -/
theorem claim_C3_counterexample :
    Part007.validateDoubleEntry oracleFail dbC3 inputC3.entries = true ∧
    (Part007.createTransaction oracleFail dbC3 inputC3).toOption.isSome = true ∧
    (findAccount (commitResult (Part007.createTransaction oracleFail dbC3 inputC3) dbC3)
        "lkr-acc").map (fun a => a.balance) = some 100 := by
  exact ⟨by decide, by decide, by decide⟩

def dbW3 : DB :=
  { accounts := [ { id := "w3from", type := .ASSET, balance := 500, currency := "USD" },
                  { id := "w3to", type := .ASSET, balance := 0, currency := "LKR" } ],
    tags := [], tagBalances := [], transactions := [], txEntries := [], nextId := 0 }

def inputW3 : CurrencyTransferTransaction :=
  { description := "transfer with no rate", amount := 10, tagId := none,
    fromAccountId := "w3from", toAccountId := "w3to",
    fromCurrency := none, toCurrency := none, customExchangeRate := none }

/-- Claim C3, witness: the amended theorem applied to a concrete
cross-currency transfer under an always-failing resolver. -/
theorem claim_C3_witness :
    Part007.createTransferTransaction oracleFail dbW3 inputW3 = .error .rateUnavailable := by
  refine (claim_C3 oracleFail dbW3 (fun f t => rfl)).2 inputW3
    { id := "w3from", type := .ASSET, balance := 500, currency := "USD" }
    { id := "w3to", type := .ASSET, balance := 0, currency := "LKR" }
    (by decide) (by decide) (by decide) rfl

/-! ## Claim C4 -/

/-- Claim C4: for a cross-currency transfer with resolved rate `r`
(the caller's custom rate when truthy, else the rate the conversion
returns), the composed entry set is exactly a DEBIT on the destination
account of `amount * r` tagged `(originalAmount = amount,
originalCurrency = source currency, exchangeRate = r)` and a CREDIT on the
source account of `amount` tagged `(originalAmount = amount * r,
originalCurrency = destination currency, exchangeRate = 1 / r)`. -/
theorem claim_C4 (oracle : Oracle) (db : DB) (input : CurrencyTransferTransaction)
    (fa ta : Account) (f t : String)
    (hfa : findAccount db input.fromAccountId = some fa)
    (hta : findAccount db input.toAccountId = some ta)
    (hf : jsOrS input.fromCurrency fa.currency = f)
    (ht : jsOrS input.toCurrency ta.currency = t)
    (hne : ¬(f = t)) :
    (∀ r : ℚ, input.customExchangeRate = some r → ¬(r = 0) →
      Part007.transferInput oracle db input = .ok
        { description := input.description, amount := input.amount,
          tagId := input.tagId, transactionType := .TRANSFER,
          entries := [
            { accountId := input.toAccountId, entryType := .DEBIT,
              amount := input.amount * r, originalAmount := some input.amount,
              originalCurrency := some f, exchangeRate := some r },
            { accountId := input.fromAccountId, entryType := .CREDIT,
              amount := input.amount, originalAmount := some (input.amount * r),
              originalCurrency := some t, exchangeRate := some (1 / r) } ] })
  ∧ (∀ rate : ℚ, input.customExchangeRate = none → oracle f t = .ok rate →
      Part007.transferInput oracle db input = .ok
        { description := input.description, amount := input.amount,
          tagId := input.tagId, transactionType := .TRANSFER,
          entries := [
            { accountId := input.toAccountId, entryType := .DEBIT,
              amount := input.amount * rate, originalAmount := some input.amount,
              originalCurrency := some f, exchangeRate := some rate },
            { accountId := input.fromAccountId, entryType := .CREDIT,
              amount := input.amount, originalAmount := some (input.amount * rate),
              originalCurrency := some t, exchangeRate := some (1 / rate) } ] }) := by
  subst hf
  subst ht
  constructor
  · intro r hc hr0
    rw [Part007.transferInput]
    simp only [hfa, hta, hc]
    rw [if_neg hne]
    simp [jsTruthyQ, hr0]
  · intro rate hc hrate
    rw [Part007.transferInput]
    simp only [hfa, hta, hc]
    rw [if_neg hne]
    simp [jsTruthyQ, convertCurrencyO, hrate]

def dbW4 : DB :=
  { accounts := [ { id := "usd-w4", type := .ASSET, balance := 5000, currency := "USD" },
                  { id := "lkr-w4", type := .ASSET, balance := 0, currency := "LKR" } ],
    tags := [], tagBalances := [], transactions := [], txEntries := [], nextId := 0 }

def inputW4 : CurrencyTransferTransaction :=
  { description := "USD to LKR", amount := 1000, tagId := none,
    fromAccountId := "usd-w4", toAccountId := "lkr-w4",
    fromCurrency := none, toCurrency := none, customExchangeRate := none }

/-- A resolver oracle that prices USD to LKR at 300 and fails elsewhere. -/
def oracle300 : Oracle := fun f t =>
  if f = "USD" ∧ t = "LKR" then .ok 300 else .error ()

/-- Claim C4, witness: the scenario of spec item S4 — transferring 1000
from a USD account to an LKR account at rate 300 composes a DEBIT of
300000 on the LKR leg (originalAmount 1000, originalCurrency USD, rate
300) and a CREDIT of 1000 on the USD leg (originalAmount 300000,
originalCurrency LKR, rate 1/300). -/
theorem claim_C4_witness :
    Part007.transferInput oracle300 dbW4 inputW4 = .ok
      { description := "USD to LKR", amount := 1000, tagId := none,
        transactionType := .TRANSFER,
        entries := [
          { accountId := "lkr-w4", entryType := .DEBIT, amount := 1000 * 300,
            originalAmount := some 1000, originalCurrency := some "USD",
            exchangeRate := some 300 },
          { accountId := "usd-w4", entryType := .CREDIT, amount := 1000,
            originalAmount := some (1000 * 300), originalCurrency := some "LKR",
            exchangeRate := some (1 / 300) } ] } := by
  exact (claim_C4 oracle300 dbW4 inputW4
      { id := "usd-w4", type := .ASSET, balance := 5000, currency := "USD" }
      { id := "lkr-w4", type := .ASSET, balance := 0, currency := "LKR" }
      "USD" "LKR" (by decide) (by decide) rfl rfl (by decide)).2 300 rfl (by rfl)

/-! ## TagBalance lookup lemmas -/

/-- The key fields of a row decide `tagBalanceKey`. -/
theorem tagBalanceKey_eq_true {t a c : String} {tb : TagBalance} :
    tagBalanceKey t a c tb = true ↔
      tb.tagId = t ∧ tb.accountId = a ∧ tb.currency = c := by
  simp [tagBalanceKey, and_assoc]

/-- `findFirst` on the key after incrementing one row by id. -/
theorem findTagBalance_map_add (l : List TagBalance) (rid : ℕ) (amount : ℚ)
    (t a c : String) :
    (l.map (fun tb => if tb.id = rid then { tb with balance := tb.balance + amount }
        else tb)).find? (tagBalanceKey t a c)
      = (l.find? (tagBalanceKey t a c)).map
          (fun tb => if tb.id = rid then { tb with balance := tb.balance + amount }
            else tb) :=
  find?_map_of_pres _ _
    (fun x => by by_cases hx : x.id = rid <;> simp [hx, tagBalanceKey]) l

/-- `findFirst` on the key after decrementing one row by id. -/
theorem findTagBalance_map_sub (l : List TagBalance) (rid : ℕ) (amount : ℚ)
    (t a c : String) :
    (l.map (fun tb => if tb.id = rid then { tb with balance := tb.balance - amount }
        else tb)).find? (tagBalanceKey t a c)
      = (l.find? (tagBalanceKey t a c)).map
          (fun tb => if tb.id = rid then { tb with balance := tb.balance - amount }
            else tb) :=
  find?_map_of_pres _ _
    (fun x => by by_cases hx : x.id = rid <;> simp [hx, tagBalanceKey]) l

/-- Under the key-uniqueness constraint, any row matching the key of a
found row is that row. -/
theorem keysUnique_find_eq (l : List TagBalance) (t a c : String) (tb0 : TagBalance)
    (hu : keysUniqueB l = true) (h0 : l.find? (tagBalanceKey t a c) = some tb0) :
    ∀ x ∈ l, tagBalanceKey t a c x = true → x = tb0 := by
  induction l with
  | nil => exact absurd h0 (by simp)
  | cons hd tl ih =>
    rw [keysUniqueB, Bool.and_eq_true] at hu
    obtain ⟨hall, hutl⟩ := hu
    cases hk : tagBalanceKey t a c hd with
    | true =>
      rw [List.find?_cons_of_pos _ hk] at h0
      have hhd : hd = tb0 := Option.some.inj h0
      intro x hx hpx
      rcases List.mem_cons.1 hx with rfl | hx2
      · exact hhd
      · exfalso
        obtain ⟨h1, h2, h3⟩ := tagBalanceKey_eq_true.1 hk
        obtain ⟨g1, g2, g3⟩ := tagBalanceKey_eq_true.1 hpx
        have := (List.all_eq_true.1 hall) x hx2
        rw [tagBalanceKey_eq_true.2 ⟨g1.trans h1.symm, g2.trans h2.symm, g3.trans h3.symm⟩] at this
        simp at this
    | false =>
      rw [List.find?_cons_of_neg _ (by rw [hk]; exact Bool.false_ne_true)] at h0
      intro x hx hpx
      rcases List.mem_cons.1 hx with rfl | hx2
      · rw [hpx] at hk; exact absurd hk (by simp)
      · exact ih hutl h0 x hx2 hpx

/-- Deleting the found row by id erases every row with its key: the lookup
afterwards is empty. -/
theorem findTagBalance_after_delete (l : List TagBalance) (t a c : String)
    (tb0 : TagBalance) (hu : keysUniqueB l = true)
    (h0 : l.find? (tagBalanceKey t a c) = some tb0) :
    (l.filter (fun tb => !(tb.id = tb0.id))).find? (tagBalanceKey t a c) = none := by
  rw [List.find?_eq_none]
  intro x hx hpx
  have hmem := List.mem_of_mem_filter hx
  have hid : (!decide (x.id = tb0.id)) = true := by
    have := List.of_mem_filter hx
    simpa using this
  have hx0 : x = tb0 := keysUnique_find_eq l t a c tb0 hu h0 x hmem (by simpa using hpx)
  rw [hx0] at hid
  simp at hid

/-- Under primary-key uniqueness, rows with equal ids are equal. -/
theorem idsUnique_eq_of_id (l : List TagBalance) (hu : idsUniqueB l = true) :
    ∀ x ∈ l, ∀ y ∈ l, x.id = y.id → x = y := by
  induction l with
  | nil => intro x hx; exact absurd hx (by simp)
  | cons hd tl ih =>
    rw [idsUniqueB, Bool.and_eq_true] at hu
    obtain ⟨hall, hutl⟩ := hu
    intro x hx y hy hxy
    rcases List.mem_cons.1 hx with rfl | hx2 <;> rcases List.mem_cons.1 hy with rfl | hy2
    · rfl
    · exfalso
      have := (List.all_eq_true.1 hall) y hy2
      rw [hxy] at this
      simp at this
    · exfalso
      have := (List.all_eq_true.1 hall) x hx2
      rw [← hxy] at this
      simp at this
    · exact ih hutl x hx2 y hy2 hxy

/-! ## Claim C5 -/

/-- Claim C5: `assignMoneyToTag(tag, account, amount)` with `amount > 0`
fails `AccountNotFound` when the account is missing, else `TagNotFound`
when the tag is missing; otherwise, with `prospective` the single tag's
current balance in the account (0 when no row) plus `amount`, it fails
`ExceedsAccountBalance` exactly when `prospective` exceeds the account's
balance, and otherwise upserts the row to `prospective`. Other tags'
balances never enter the check. -/
theorem claim_C5 (db : DB) (tagId accountId : String) (amount : ℚ)
    (hpos : 0 < amount) :
    (findAccount db accountId = none →
      TagBalanceService.assignMoneyToTag db tagId accountId amount =
        .error .accountNotFound)
  ∧ (∀ acct : Account, findAccount db accountId = some acct →
      (findTag db tagId = none →
        TagBalanceService.assignMoneyToTag db tagId accountId amount =
          .error .tagNotFound)
    ∧ (∀ tg : Tag, findTag db tagId = some tg →
        (((tagBalanceOf db tagId accountId acct.currency).getD 0 + amount > acct.balance ↔
          TagBalanceService.assignMoneyToTag db tagId accountId amount =
            .error .exceedsAccountBalance)
      ∧ ((tagBalanceOf db tagId accountId acct.currency).getD 0 + amount ≤ acct.balance →
          (TagBalanceService.assignMoneyToTag db tagId accountId amount).toOption.map
              (fun db2 => tagBalanceOf db2 tagId accountId acct.currency)
            = some (some ((tagBalanceOf db tagId accountId acct.currency).getD 0 + amount)))))) := by
  refine ⟨?_, ?_⟩
  · intro h
    simp only [TagBalanceService.assignMoneyToTag, h]
  · intro acct hacct
    refine ⟨?_, ?_⟩
    · intro htag
      simp only [TagBalanceService.assignMoneyToTag, hacct, htag]
    · intro tg htag
      simp only [tagBalanceOf]
      by_cases hgt : ((findTagBalance db tagId accountId acct.currency).map
          (fun tb => tb.balance)).getD 0 + amount > acct.balance
      · refine ⟨⟨fun _ => ?_, fun _ => hgt⟩, fun hle => absurd hgt (not_lt.2 hle)⟩
        simp only [TagBalanceService.assignMoneyToTag, hacct, htag]
        rw [if_pos hgt]
      · refine ⟨⟨fun h => absurd h hgt, fun hres => ?_⟩, fun _ => ?_⟩
        · exfalso
          simp only [TagBalanceService.assignMoneyToTag, hacct, htag] at hres
          rw [if_neg hgt] at hres
          cases hcur : findTagBalance db tagId accountId acct.currency <;>
            rw [hcur] at hres <;> exact absurd hres (by simp)
        · simp only [TagBalanceService.assignMoneyToTag, hacct, htag]
          rw [if_neg hgt]
          cases hcur : findTagBalance db tagId accountId acct.currency with
          | some existing =>
            simp only [hcur, Except.toOption, Option.map_some']
            have hfind := findTagBalance_map_add db.tagBalances existing.id amount
              tagId accountId acct.currency
            simp only [tagBalanceOf, findTagBalance] at *
            rw [hfind, hcur]
            simp
          | none =>
            simp only [hcur, Except.toOption, Option.map_some']
            have hfind := find?_append_single_of_none
              (tagBalanceKey tagId accountId acct.currency)
              { id := db.nextId, tagId := tagId, accountId := accountId,
                currency := acct.currency, balance := amount }
              db.tagBalances (by simpa [findTagBalance] using hcur)
              (by simp [tagBalanceKey])
            simp only [tagBalanceOf, findTagBalance]
            rw [hfind]
            simp

def dbW5 : DB :=
  { accounts := [ { id := "checking", type := .ASSET, balance := 10000, currency := "LKR" } ],
    tags := [ { id := "vehicle" } ],
    tagBalances := [], transactions := [], txEntries := [], nextId := 0 }

/-- Claim C5, witness: the scenario of spec item S2 — assigning 4000 to
tag `vehicle` in a 10000-balance account stores a 4000 tag balance. -/
theorem claim_C5_witness :
    (TagBalanceService.assignMoneyToTag dbW5 "vehicle" "checking" 4000).toOption.map
        (fun db2 => tagBalanceOf db2 "vehicle" "checking" "LKR")
      = some (some 4000) := by
  have h := ((((claim_C5 dbW5 "vehicle" "checking" 4000 (by decide)).2
      { id := "checking", type := .ASSET, balance := 10000, currency := "LKR" }
      (by decide)).2 { id := "vehicle" } (by decide)).2) (by decide)
  rw [show ((tagBalanceOf dbW5 "vehicle" "checking" "LKR").getD 0 + 4000 : ℚ) = 4000
    from by decide] at h
  exact h

/-! ## Claim C6 -/

/-- Claim C6: `removeMoneyFromTag(tag, account, amount)` with `amount > 0`
on an existing account fails `TagBalanceNotFound` when no row exists for
the tag, the account and the account's currency; with a row present it
fails `InsufficientTagBalance` when `amount` exceeds the row's balance,
deletes the row entirely when `amount` equals the balance exactly, and
otherwise decrements the balance by `amount`. Every failure returns before
any write, leaving the stored rows unchanged. -/
theorem claim_C6 (db : DB) (tagId accountId : String) (amount : ℚ) (acct : Account)
    (hpos : 0 < amount) (hacct : findAccount db accountId = some acct)
    (huniq : keysUniqueB db.tagBalances = true) :
    (findTagBalance db tagId accountId acct.currency = none →
      TagBalanceService.removeMoneyFromTag db tagId accountId amount =
        .error .tagBalanceNotFound)
  ∧ (∀ tb : TagBalance, findTagBalance db tagId accountId acct.currency = some tb →
      (amount > tb.balance →
        TagBalanceService.removeMoneyFromTag db tagId accountId amount =
          .error .insufficientTagBalance)
    ∧ (amount = tb.balance →
        (TagBalanceService.removeMoneyFromTag db tagId accountId amount).toOption.map
            (fun db2 => findTagBalance db2 tagId accountId acct.currency)
          = some none)
    ∧ (amount < tb.balance →
        (TagBalanceService.removeMoneyFromTag db tagId accountId amount).toOption.map
            (fun db2 => tagBalanceOf db2 tagId accountId acct.currency)
          = some (some (tb.balance - amount)))) := by
  refine ⟨?_, ?_⟩
  · intro h
    simp only [TagBalanceService.removeMoneyFromTag, hacct, h]
  · intro tb htb
    refine ⟨?_, ?_, ?_⟩
    · intro hgt
      simp only [TagBalanceService.removeMoneyFromTag, hacct, htb]
      rw [if_pos hgt]
    · intro heq
      simp only [TagBalanceService.removeMoneyFromTag, hacct, htb]
      rw [if_neg (by rw [heq]; exact lt_irrefl tb.balance), if_pos heq]
      simp only [Except.toOption, Option.map_some']
      have hdel := findTagBalance_after_delete db.tagBalances tagId accountId
        acct.currency tb huniq (by simpa [findTagBalance] using htb)
      simp only [findTagBalance]
      rw [Option.some_inj]
      exact hdel
    · intro hlt
      simp only [TagBalanceService.removeMoneyFromTag, hacct, htb]
      rw [if_neg (not_lt.2 (le_of_lt hlt)), if_neg (ne_of_lt hlt)]
      simp only [Except.toOption, Option.map_some']
      have hfind := findTagBalance_map_sub db.tagBalances tb.id amount
        tagId accountId acct.currency
      simp only [tagBalanceOf, findTagBalance] at *
      rw [hfind, htb]
      simp

def dbW6 : DB :=
  { accounts := [ { id := "checking", type := .ASSET, balance := 10000, currency := "LKR" } ],
    tags := [ { id := "vehicle" } ],
    tagBalances := [ { id := 3, tagId := "vehicle", accountId := "checking",
                       currency := "LKR", balance := 4000 } ],
    transactions := [], txEntries := [], nextId := 4 }

/-- Claim C6, witness: the scenario of spec item S5 — removing exactly the
current 4000 balance deletes the row entirely. -/
theorem claim_C6_witness :
    (TagBalanceService.removeMoneyFromTag dbW6 "vehicle" "checking" 4000).toOption.map
        (fun db2 => findTagBalance db2 "vehicle" "checking" "LKR")
      = some none := by
  exact ((claim_C6 dbW6 "vehicle" "checking" 4000
      { id := "checking", type := .ASSET, balance := 10000, currency := "LKR" }
      (by decide) (by decide) (by decide)).2
      { id := 3, tagId := "vehicle", accountId := "checking",
        currency := "LKR", balance := 4000 }
      (by decide)).2.1 (by decide)

/-! ## Claim C10 -/

/-- Strict positivity of every stored tag-balance row. -/
def allPositive (l : List TagBalance) : Bool :=
  l.all (fun tb => decide (0 < tb.balance))

/-- Claim C10: with strictly positive stored balances and a strictly
positive amount, a successful `assignMoneyToTag` or `removeMoneyFromTag`
leaves every stored `TagBalance` row strictly positive — assign only
creates or increments rows by the positive amount, and remove deletes a
row that would reach exactly zero and otherwise leaves a positive
remainder, so a stored zero-balance row is never produced. (The id
hypothesis is the store's primary-key uniqueness of `tag_balances.id`.) -/
theorem claim_C10 (db : DB) (tagId accountId : String) (amount : ℚ)
    (hpos : 0 < amount) (hids : idsUniqueB db.tagBalances = true)
    (hinv : allPositive db.tagBalances = true) :
    (∀ db2, TagBalanceService.assignMoneyToTag db tagId accountId amount = .ok db2 →
      allPositive db2.tagBalances = true)
  ∧ (∀ db2, TagBalanceService.removeMoneyFromTag db tagId accountId amount = .ok db2 →
      allPositive db2.tagBalances = true) := by
  rw [allPositive, List.all_eq_true] at hinv
  constructor
  · intro db2 hok
    simp only [TagBalanceService.assignMoneyToTag] at hok
    cases hacct : findAccount db accountId with
    | none => rw [hacct] at hok; exact absurd hok (by simp)
    | some acct =>
      simp only [hacct] at hok
      cases htag : findTag db tagId with
      | none => rw [htag] at hok; exact absurd hok (by simp)
      | some tg =>
        simp only [htag] at hok
        by_cases hgt : ((findTagBalance db tagId accountId acct.currency).map
            (fun tb => tb.balance)).getD 0 + amount > acct.balance
        · rw [if_pos hgt] at hok; exact absurd hok (by simp)
        · rw [if_neg hgt] at hok
          cases hcur : findTagBalance db tagId accountId acct.currency with
          | some existing =>
            simp only [hcur, Except.ok.injEq] at hok
            subst hok
            rw [allPositive, List.all_eq_true]
            intro y hy
            obtain ⟨x, hx, rfl⟩ := List.mem_map.1 hy
            by_cases hxid : x.id = existing.id
            · rw [if_pos hxid]
              have hxpos := hinv x hx
              simp only [decide_eq_true_eq] at hxpos
              simpa using add_pos hxpos hpos
            · rw [if_neg hxid]
              exact hinv x hx
          | none =>
            simp only [hcur, Except.ok.injEq] at hok
            subst hok
            rw [allPositive, List.all_eq_true]
            intro y hy
            rcases List.mem_append.1 hy with hy2 | hy2
            · exact hinv y hy2
            · have hyeq := List.mem_singleton.1 hy2
              rw [hyeq]
              simpa using hpos
  · intro db2 hok
    simp only [TagBalanceService.removeMoneyFromTag] at hok
    cases hacct : findAccount db accountId with
    | none => rw [hacct] at hok; exact absurd hok (by simp)
    | some acct =>
      simp only [hacct] at hok
      cases hcur : findTagBalance db tagId accountId acct.currency with
      | none => rw [hcur] at hok; exact absurd hok (by simp)
      | some tb0 =>
        simp only [hcur] at hok
        by_cases hgt : amount > tb0.balance
        · rw [if_pos hgt] at hok; exact absurd hok (by simp)
        · rw [if_neg hgt] at hok
          by_cases heq : amount = tb0.balance
          · rw [if_pos heq] at hok
            simp only [Except.ok.injEq] at hok
            subst hok
            rw [allPositive, List.all_eq_true]
            intro y hy
            exact hinv y (List.mem_of_mem_filter hy)
          · rw [if_neg heq] at hok
            simp only [Except.ok.injEq] at hok
            subst hok
            have hlt : amount < tb0.balance := lt_of_le_of_ne (not_lt.1 hgt) heq
            have htb0mem : tb0 ∈ db.tagBalances :=
              List.mem_of_find?_eq_some hcur
            rw [allPositive, List.all_eq_true]
            intro y hy
            obtain ⟨x, hx, rfl⟩ := List.mem_map.1 hy
            by_cases hxid : x.id = tb0.id
            · have hx0 : x = tb0 := idsUnique_eq_of_id db.tagBalances hids x hx tb0 htb0mem hxid
              rw [if_pos hxid, hx0]
              simpa using sub_pos.2 hlt
            · rw [if_neg hxid]
              exact hinv x hx

def dbW10 : DB :=
  { accounts := [ { id := "checking", type := .ASSET, balance := 10000, currency := "LKR" } ],
    tags := [ { id := "vehicle" } ],
    tagBalances := [ { id := 3, tagId := "vehicle", accountId := "checking",
                       currency := "LKR", balance := 4000 } ],
    transactions := [], txEntries := [], nextId := 4 }

/-- Claim C10, witness: the invariant theorem applied to a concrete
removal of 1500 out of a 4000 tag balance. -/
theorem claim_C10_witness :
    (TagBalanceService.removeMoneyFromTag dbW10 "vehicle" "checking" 1500).toOption.map
        (fun db2 => allPositive db2.tagBalances) = some true := by
  have hsome : (TagBalanceService.removeMoneyFromTag dbW10 "vehicle" "checking"
      1500).toOption.isSome = true := by decide
  cases hr : TagBalanceService.removeMoneyFromTag dbW10 "vehicle" "checking" 1500 with
  | error e => rw [hr] at hsome; simp [Except.toOption] at hsome
  | ok db2 =>
    have h := (claim_C10 dbW10 "vehicle" "checking" 1500
      (by decide) (by decide) (by decide)).2 db2 hr
    simp [Except.toOption, h]

/-! ## Claim C9 -/

/-- Claim C9 (amended): on a cache miss, `getExchangeRate` persists the
fetched rate with a plain `create`; when a concurrent resolver has already
written the `(fromCurrency, toCurrency, date)` row between the lookup and
the write, the duplicate-key conflict propagates as an error — the rate is
not returned and the write is not treated as success. -/
theorem claim_C9 (api : RateApi) (dbRead dbWrite : List ExchangeRateRow)
    (f t : String) (now : ℕ) (r : ℚ)
    (hne : ¬(jsToUpper f = jsToUpper t))
    (hmiss : findUniqueRate dbRead (jsToUpper f) (jsToUpper t)
      (dateOfDayString (dayString now)) = none)
    (hapi : ratesLookup (api (jsToLower (jsToUpper f))) (jsToLower (jsToUpper t)) = some r)
    (hdup : (findUniqueRate dbWrite (jsToUpper f) (jsToUpper t)
      (dateOfDayString (dayString now))).isSome = true) :
    getExchangeRateRaced api dbRead dbWrite f t now = .error .duplicateKey := by
  obtain ⟨row, hrow⟩ := Option.isSome_iff_exists.1 hdup
  simp only [getExchangeRateRaced, if_neg hne, hmiss, hapi, hrow]

def apiC9 : RateApi := fun b => if b = "usd" then some [("lkr", (300 : ℚ))] else none

def rowC9 : ExchangeRateRow :=
  { fromCurrency := "USD", toCurrency := "LKR", rate := 300, date := 0 }

/-- Claim C9, counterexample: a getRate run whose lookup misses, whose
fetch succeeds, and whose persist step hits an already-present
`(USD, LKR, day 0)` row. The claim says the write is treated as success
and the rate returned; the code surfaces the duplicate-key error
instead. -/
theorem claim_C9_counterexample :
    findUniqueRate [] "USD" "LKR" (dateOfDayString (dayString 0)) = none ∧
    (findUniqueRate [rowC9] "USD" "LKR" (dateOfDayString (dayString 0))).isSome = true ∧
    ratesLookup (apiC9 "usd") "lkr" = some 300 ∧
    getExchangeRateRaced apiC9 [] [rowC9] "USD" "LKR" 0 = .error .duplicateKey := by
  refine ⟨by decide, by decide, by decide, by rfl⟩

/-- Claim C9, witness: the amended theorem applied to the concrete raced
run. -/
theorem claim_C9_witness :
    getExchangeRateRaced apiC9 [] [rowC9] "USD" "LKR" 1000 = .error .duplicateKey :=
  claim_C9 apiC9 [] [rowC9] "USD" "LKR" 1000 300
    (by decide) (by decide) (by decide) (by decide)

/-! ## Claim C7 -/

def apiC7 : RateApi := fun b => if b = "usd" then some [("lkr", (302 : ℚ))] else none

/-- The cached `(USD, LKR)` row for day 0, keyed at midnight — the key
shape `getExchangeRate` reads and writes. -/
def rowC7 : ExchangeRateRow :=
  { fromCurrency := "USD", toCurrency := "LKR", rate := 300, date := 0 }

/-- The row `updateExchangeRates` creates when run at noon of day 0: the
refreshed rate 302, keyed at the full timestamp 43200000 rather than the
calendar day. -/
def rowC7new : ExchangeRateRow :=
  { fromCurrency := "USD", toCurrency := "LKR", rate := 302, date := 43200000 }

/-- Claim C7, failing input: a bulk refresh of base USD at noon of day 0
against a cache already holding a midnight-keyed `(USD, LKR, day 0)` row
of rate 300, with the fetch returning 302. The upsert keys the write at
`new Date()` — the full timestamp — so instead of overwriting the same-day
row it appends a second row for the pair, and a subsequent `getExchangeRate`
for the same day still returns the stale 300. -/
theorem claim_C7 :
    updateExchangeRates apiC7 [rowC7] "USD" 43200000 = .ok [rowC7, rowC7new] ∧
    getExchangeRate apiC7 [rowC7, rowC7new] "USD" "LKR" 43200000 =
      .ok (300, [rowC7, rowC7new]) ∧
    ¬((300 : ℚ) = 302) := by
  refine ⟨by rfl, by rfl, by decide⟩
